import Mathlib

/-!
Verification of the HeyBoxUID plugin's API core against its specification.

The development shallowly embeds the Python code of
`HeyBoxUID/utils/api/utils.py`, `requests.py` and `api.py`:

* Python JSON-ish values are the inductive `PyValue`; Python dicts are
  association lists `PyDict` with first-match lookup and in-place update.
* Fallible Python code is embedded in `Except PyErr`; `PyErr` carries the
  Python exception class that would be raised.
* Python machine-level operations used by the signature routine (MD5 over
  32-bit words) are implemented over `Nat` with explicit reduction `% 2 ^ 32`.
-/

/-- Python exception classes that the embedded code can raise. -/
inductive PyErr where
  | attributeError (name : String)
  | valueError (msg : String)
  | typeError (msg : String)
  | keyError (key : String)
  | zeroDivisionError
  deriving Repr, DecidableEq

/-- A Python value as it appears in the JSON envelopes and attribute stores
handled by the code under verification: `None`, `bool`, `int`, `str`,
`list`, `dict` (string keys, as in all JSON envelopes here) and a generic
object with named attributes (used to model `httpx.AsyncClient` values).
Floats do not occur in any of the envelopes the claims quantify over. -/
inductive PyValue where
  | none
  | bool (b : Bool)
  | int (i : Int)
  | str (s : String)
  | list (xs : List PyValue)
  | dict (kvs : List (String × PyValue))
  | obj (fields : List (String × PyValue))
  deriving Repr

/-- A Python dict with string keys: an association list in insertion order. -/
abbrev PyDict := List (String × PyValue)

/-- `d.get(k)` without default: first entry with the given key. -/
def dictGet : PyDict → String → Option PyValue
  | [], _ => Option.none
  | (k', v) :: rest, k => if k' == k then Option.some v else dictGet rest k

/-- `d.get(k, v)`: lookup with default. -/
def dictGetD (d : PyDict) (k : String) (v : PyValue) : PyValue :=
  (dictGet d k).getD v

/-- `d[k] = v`: replace the value in place if the key exists (keeping its
position, as CPython dicts do), otherwise append the new entry. -/
def dictSet (d : PyDict) (k : String) (v : PyValue) : PyDict :=
  match d with
  | [] => [(k, v)]
  | (k', v') :: rest => if k' == k then (k, v) :: rest else (k', v') :: dictSet rest k v

/-- `d.update(e)`: fold `dictSet` over the entries of `e` in order. -/
def dictUpdate (d e : PyDict) : PyDict :=
  e.foldl (fun acc p => dictSet acc p.1 p.2) d

/-- `d[k]` subscript access: `KeyError` when the key is absent. -/
def dictGetItem (d : PyDict) (k : String) : Except PyErr PyValue :=
  match dictGet d k with
  | Option.some v => Except.ok v
  | Option.none => Except.error (PyErr.keyError k)

/-- `v.get(k, default)` on an arbitrary value: succeeds only when `v` is a
dict; any other value has no `get` attribute and raises `AttributeError`. -/
def pyGet (v : PyValue) (k : String) (default : PyValue) : Except PyErr PyValue :=
  match v with
  | .dict d => Except.ok (dictGetD d k default)
  | _ => Except.error (PyErr.attributeError "get")

/-- Attribute access `v.name` on an object value. -/
def pyGetAttr (v : PyValue) (name : String) : Except PyErr PyValue :=
  match v with
  | .obj fields =>
    match (fields.find? (fun p => p.1 == name)).map (fun p => p.2) with
    | Option.some a => Except.ok a
    | Option.none => Except.error (PyErr.attributeError name)
  | _ => Except.error (PyErr.attributeError name)

mutual

/-- Python `==` on the embedded values. `bool` is a subclass of `int` in
Python, so `True == 1`; containers compare elementwise. (CPython compares
dicts up to key order; the embedded ordered comparison agrees with it on
all dicts built in insertion order, which is the only way dicts arise
here, and `==` is only ever applied to strings by the code under audit.) -/
def pyEq : PyValue → PyValue → Bool
  | .none, .none => true
  | .bool a, .bool b => a == b
  | .bool a, .int b => (if a then (1 : Int) else 0) == b
  | .int a, .bool b => a == (if b then (1 : Int) else 0)
  | .int a, .int b => a == b
  | .str a, .str b => a == b
  | .list as, .list bs => pyEqList as bs
  | .dict as, .dict bs => pyEqDict as bs
  | _, _ => false

/-- Elementwise Python `==` on lists. -/
def pyEqList : List PyValue → List PyValue → Bool
  | [], [] => true
  | a :: as, b :: bs => pyEq a b && pyEqList as bs
  | _, _ => false

/-- Entrywise Python `==` on dict association lists. -/
def pyEqDict : List (String × PyValue) → List (String × PyValue) → Bool
  | [], [] => true
  | (ka, va) :: as, (kb, vb) :: bs => ka == kb && pyEq va vb && pyEqDict as bs
  | _, _ => false

end

/-- Python truthiness `bool(v)`: total, never raises. -/
def pyTruthy : PyValue → Bool
  | .none => false
  | .bool b => b
  | .int i => i != 0
  | .str s => s != ""
  | .list xs => !xs.isEmpty
  | .dict kvs => !kvs.isEmpty
  | .obj _ => true

/-- Whitespace characters recognised by Python's `int(str)` stripping
(ASCII subset; the envelopes only contain ASCII whitespace). -/
def isPySpace (c : Char) : Bool :=
  c = ' ' || c = '\t' || c = '\n' || c = '\r'

/-- Strip leading and trailing whitespace from a character list. -/
def stripWs (l : List Char) : List Char :=
  ((l.dropWhile isPySpace).reverse.dropWhile isPySpace).reverse

/-- Digit run with single underscores allowed between digits, as accepted by
Python's `int(str)` (`"1_0"` parses, `"1__0"` and trailing `"1_"` do not).
The first character has already been checked to be a digit by the caller. -/
def parseDigitsU : List Char → Nat → Option Nat
  | [], acc => Option.some acc
  | '_' :: c :: rest, acc =>
    if c.isDigit then parseDigitsU rest (acc * 10 + (c.toNat - 48)) else Option.none
  | c :: rest, acc =>
    if c.isDigit then parseDigitsU rest (acc * 10 + (c.toNat - 48)) else Option.none

/-- Python `int(s)` for `s : str`: strip whitespace, optional sign, decimal
digits (with underscore separators); anything else raises `ValueError`.
(Non-ASCII digits and base prefixes are outside the modelled envelopes.) -/
def pyParseInt (s : String) : Except PyErr Int :=
  let l := stripWs s.toList
  let signRest : Bool × List Char :=
    match l with
    | '-' :: r => (true, r)
    | '+' :: r => (false, r)
    | r => (false, r)
  match signRest.2 with
  | [] => Except.error (PyErr.valueError ("invalid literal for int() with base 10: " ++ s))
  | c :: _ =>
    if c.isDigit then
      match parseDigitsU signRest.2 0 with
      | Option.some n => Except.ok (if signRest.1 then -(n : Int) else (n : Int))
      | Option.none => Except.error (PyErr.valueError ("invalid literal for int() with base 10: " ++ s))
    else Except.error (PyErr.valueError ("invalid literal for int() with base 10: " ++ s))

/-- Python `int(v)`: identity on ints, `0/1` on bools, string parsing on
strings, `TypeError` on every other value. -/
def pyInt (v : PyValue) : Except PyErr Int :=
  match v with
  | .int i => Except.ok i
  | .bool b => Except.ok (if b then 1 else 0)
  | .str s => pyParseInt s
  | _ => Except.error (PyErr.typeError "int() argument must be a string or a number")

/-- The single-quote character, kept out of string literals. -/
def sglq : String := String.singleton (Char.ofNat 39)

mutual

/-- Python `repr(v)` as used by `str()` on containers. String escaping
inside `repr` of a `str` is not modelled (no envelope message needs it). -/
def pyRepr : PyValue → String
  | .none => "None"
  | .bool b => if b then "True" else "False"
  | .int i => toString i
  | .str s => sglq ++ s ++ sglq
  | .list xs => "[" ++ pyReprList xs ++ "]"
  | .dict kvs => "\x7b" ++ pyReprDict kvs ++ "\x7d"
  | .obj _ => "<object>"

/-- Comma-separated `repr` of list elements. -/
def pyReprList : List PyValue → String
  | [] => ""
  | [x] => pyRepr x
  | x :: xs => pyRepr x ++ ", " ++ pyReprList xs

/-- Comma-separated `repr` of dict entries. -/
def pyReprDict : List (String × PyValue) → String
  | [] => ""
  | [(k, v)] => sglq ++ k ++ sglq ++ ": " ++ pyRepr v
  | (k, v) :: kvs => sglq ++ k ++ sglq ++ ": " ++ pyRepr v ++ ", " ++ pyReprDict kvs

end

/-- Python `str(v)`: strings unchanged, standard renderings otherwise. -/
def pyStrOf : PyValue → String
  | .str s => s
  | .none => "None"
  | .bool b => if b then "True" else "False"
  | .int i => toString i
  | v => pyRepr v

/-! ### MD5 (RFC 1321), as used by `hashlib.md5(...).hexdigest()`

32-bit words are `Nat` values kept below `2 ^ 32` by explicit reduction. -/

/-- Addition modulo `2 ^ 32`. -/
def add32 (a b : Nat) : Nat := (a + b) % 4294967296

/-- Bitwise complement within 32 bits. -/
def not32 (a : Nat) : Nat := Nat.xor a 4294967295

/-- Left rotation of a 32-bit word. -/
def rotl32 (x n : Nat) : Nat :=
  ((x <<< n) ||| (x >>> (32 - n))) % 4294967296

/-- The 64 MD5 sine-table constants `K[i] = floor(abs(sin(i+1)) * 2^32)`. -/
def md5K : List Nat :=
  [0xd76aa478, 0xe8c7b756, 0x242070db, 0xc1bdceee,
   0xf57c0faf, 0x4787c62a, 0xa8304613, 0xfd469501,
   0x698098d8, 0x8b44f7af, 0xffff5bb1, 0x895cd7be,
   0x6b901122, 0xfd987193, 0xa679438e, 0x49b40821,
   0xf61e2562, 0xc040b340, 0x265e5a51, 0xe9b6c7aa,
   0xd62f105d, 0x02441453, 0xd8a1e681, 0xe7d3fbc8,
   0x21e1cde6, 0xc33707d6, 0xf4d50d87, 0x455a14ed,
   0xa9e3e905, 0xfcefa3f8, 0x676f02d9, 0x8d2a4c8a,
   0xfffa3942, 0x8771f681, 0x6d9d6122, 0xfde5380c,
   0xa4beea44, 0x4bdecfa9, 0xf6bb4b60, 0xbebfbc70,
   0x289b7ec6, 0xeaa127fa, 0xd4ef3085, 0x04881d05,
   0xd9d4d039, 0xe6db99e5, 0x1fa27cf8, 0xc4ac5665,
   0xf4292244, 0x432aff97, 0xab9423a7, 0xfc93a039,
   0x655b59c3, 0x8f0ccc92, 0xffeff47d, 0x85845dd1,
   0x6fa87e4f, 0xfe2ce6e0, 0xa3014314, 0x4e0811a1,
   0xf7537e82, 0xbd3af235, 0x2ad7d2bb, 0xeb86d391]

/-- Per-round shift amounts. -/
def md5S (i : Nat) : Nat :=
  if i < 16 then [7, 12, 17, 22].getD (i % 4) 0
  else if i < 32 then [5, 9, 14, 20].getD (i % 4) 0
  else if i < 48 then [4, 11, 16, 23].getD (i % 4) 0
  else [6, 10, 15, 21].getD (i % 4) 0

/-- Message-word index used in step `i`. -/
def md5G (i : Nat) : Nat :=
  if i < 16 then i % 16
  else if i < 32 then (5 * i + 1) % 16
  else if i < 48 then (3 * i + 5) % 16
  else (7 * i) % 16

/-- The round function `F/G/H/I` of step `i`. -/
def md5F (i b c d : Nat) : Nat :=
  if i < 16 then (b &&& c) ||| (not32 b &&& d)
  else if i < 32 then (d &&& b) ||| (not32 d &&& c)
  else if i < 48 then Nat.xor (Nat.xor b c) d
  else Nat.xor c (b ||| not32 d)

/-- One MD5 step: rotate the state quadruple. -/
def md5Step (M : List Nat) (st : Nat × Nat × Nat × Nat) (i : Nat) :
    Nat × Nat × Nat × Nat :=
  let a := st.1
  let b := st.2.1
  let c := st.2.2.1
  let d := st.2.2.2
  let f := md5F i b c d
  let newB :=
    add32 b (rotl32 (add32 (add32 a f) (add32 (md5K.getD i 0) (M.getD (md5G i) 0))) (md5S i))
  (d, newB, b, c)

/-- Decode a 64-byte block into 16 little-endian 32-bit words. -/
def blockWords (blk : List Nat) : List Nat :=
  (List.range 16).map fun i =>
    blk.getD (4 * i) 0 + 256 * blk.getD (4 * i + 1) 0 +
      65536 * blk.getD (4 * i + 2) 0 + 16777216 * blk.getD (4 * i + 3) 0

/-- Compress one 64-byte block into the running state. -/
def md5Compress (st : Nat × Nat × Nat × Nat) (blk : List Nat) :
    Nat × Nat × Nat × Nat :=
  let M := blockWords blk
  let r := (List.range 64).foldl (md5Step M) st
  (add32 st.1 r.1, add32 st.2.1 r.2.1, add32 st.2.2.1 r.2.2.1, add32 st.2.2.2 r.2.2.2)

/-- MD5 padding: `0x80`, zeros to 56 mod 64, then the 64-bit little-endian
bit length. -/
def md5Pad (msg : List Nat) : List Nat :=
  let padLen := (119 - msg.length % 64) % 64
  let bitLen := (msg.length * 8) % 18446744073709551616
  msg ++ [128] ++ List.replicate padLen 0 ++
    ((List.range 8).map fun i => bitLen / 256 ^ i % 256)

/-- Split a byte list into 64-byte chunks (the padded input has length a
multiple of 64). -/
def chunks64 : List Nat → List (List Nat)
  | [] => []
  | x :: xs => (x :: xs).take 64 :: chunks64 ((x :: xs).drop 64)
  termination_by l => l.length
  decreasing_by
    simp [List.length_drop]
    omega

/-- Little-endian byte decomposition of a 32-bit word. -/
def wordLE (w : Nat) : List Nat :=
  [w % 256, w / 256 % 256, w / 65536 % 256, w / 16777216 % 256]

/-- The 16-byte MD5 digest of a byte string. -/
def md5Bytes (msg : List Nat) : List Nat :=
  let st := chunks64 (md5Pad msg) |>.foldl md5Compress
    (0x67452301, 0xefcdab89, 0x98badcfe, 0x10325476)
  wordLE st.1 ++ wordLE st.2.1 ++ wordLE st.2.2.1 ++ wordLE st.2.2.2

/-- Lowercase hex digit for `n < 16`. -/
def hexChar (n : Nat) : Char :=
  if n < 10 then Char.ofNat (48 + n) else Char.ofNat (87 + n)

/-- Lowercase hexadecimal rendering of a byte list, two digits per byte. -/
def hexOfBytes (bs : List Nat) : List Char :=
  bs.foldr (fun b acc => hexChar (b / 16 % 16) :: hexChar (b % 16) :: acc) []

/-- UTF-8 encoding of one code point (as `str.encode("utf-8")` does). -/
def utf8Char (c : Char) : List Nat :=
  let n := c.toNat
  if n < 128 then [n]
  else if n < 2048 then [192 + n / 64, 128 + n % 64]
  else if n < 65536 then [224 + n / 4096, 128 + n / 64 % 64, 128 + n % 64]
  else [240 + n / 262144, 128 + n / 4096 % 64, 128 + n / 64 % 64, 128 + n % 64]

/-- UTF-8 encoding of a character list. -/
def utf8Bytes (s : List Char) : List Nat :=
  s.foldr (fun c acc => utf8Char c ++ acc) []

/-- `hashlib.md5(s.encode("utf-8")).hexdigest()` over a character list:
the 32-character lowercase hex digest. Embeds `XhhUtil._md5`. -/
def md5hexL (s : List Char) : List Char :=
  hexOfBytes (md5Bytes (utf8Bytes s))

/-! ### Python string operations used by `XhhUtil.gen_hkey`

Python strings are sequences of code points, embedded as `List Char`. -/

/-- Python `s.startswith(p)`. -/
def listStartsWith (s p : List Char) : Bool :=
  s.take p.length == p

/-- Python `s.replace(pat, rep)`: scan left to right, replacing each
occurrence of `pat` and continuing after the inserted replacement (the
replacement text is not rescanned). -/
def pyReplace : List Char → List Char → List Char → List Char
  | [], _, _ => []
  | c :: cs, pat, rep =>
    if pat ≠ [] ∧ (c :: cs).take pat.length = pat then
      rep ++ pyReplace ((c :: cs).drop pat.length) pat rep
    else
      c :: pyReplace cs pat rep
  termination_by s => s.length
  decreasing_by
    · rename_i h
      have hp : 0 < pat.length := List.length_pos.mpr h.1
      simp [List.length_drop]
      omega
    · simp

/-- Python `s.rstrip("/")`: drop trailing slashes. -/
def rstripSlash (s : List Char) : List Char :=
  (s.reverse.dropWhile (fun c => c = '/')).reverse

/-! ### `urllib.parse.urlparse(url).path`

Model of the CPython stdlib path extraction, used by `gen_hkey` only on
inputs that start with `"http"`. -/

/-- Characters allowed in a URL scheme after the initial letter. -/
def isSchemeChar (c : Char) : Bool :=
  c.isAlphanum || c = '+' || c = '-' || c = '.'

/-- Split off `scheme:` when the text before the first `:` is a valid scheme
starting with a letter, returning `(scheme lowercased, rest)`. -/
def splitScheme (url : List Char) : List Char × List Char :=
  match url.findIdx? (fun c => c = ':') with
  | Option.some i =>
    if 0 < i ∧ (url.headD ' ').isAlpha ∧ (url.take i).all isSchemeChar then
      ((url.take i).map Char.toLower, url.drop (i + 1))
    else ([], url)
  | Option.none => ([], url)

/-- Drop `//netloc` (everything up to the next `/`, `?` or `#`, which is
kept) when the text starts with `//`. -/
def splitNetloc (url : List Char) : List Char :=
  if url.take 2 = ['/', '/'] then
    (url.drop 2).dropWhile (fun c => ¬(c = '/' ∨ c = '?' ∨ c = '#'))
  else url

/-- Python `s.rfind(c)`: index of the last occurrence. -/
def pyRFind (s : List Char) (c : Char) : Option Nat :=
  (s.reverse.findIdx? (fun x => x = c)).map (fun j => s.length - 1 - j)

/-- Python `s.find(c, start)`: index of the first occurrence at or after
`start`. -/
def pyFindFrom (s : List Char) (c : Char) (start : Nat) : Option Nat :=
  ((s.drop start).findIdx? (fun x => x = c)).map (fun j => j + start)

/-- `urllib.parse._splitparams`: drop the `;params` suffix of the last path
segment, as `urlparse` does for schemes in `uses_params`. -/
def splitParamsPath (url : List Char) : List Char :=
  if url.contains ';' then
    match pyRFind url '/' with
    | Option.some ls =>
      match pyFindFrom url ';' ls with
      | Option.some i => url.take i
      | Option.none => url
    | Option.none => url.take ((url.findIdx? (fun c => c = ';')).getD url.length)
  else url

/-- The stdlib `uses_params` scheme list. -/
def usesParams : List (List Char) :=
  ["", "ftp", "hdl", "prospero", "http", "imap", "https", "shttp", "rtsp",
   "rtspu", "sip", "sips", "mms", "sftp", "tel"].map String.toList

/-- `urllib.parse.urlparse(url).path`: strip scheme and netloc, cut at the
fragment and query, and split params for `uses_params` schemes. -/
def urlparsePath (url : List Char) : List Char :=
  let sr := splitScheme url
  let rest := splitNetloc sr.2
  let p := (rest.takeWhile (fun c => c ≠ '#')).takeWhile (fun c => c ≠ '?')
  if sr.1 ∈ usesParams ∧ p.contains ';' then splitParamsPath p else p

/-! ### `XhhUtil.gen_hkey` -/

/-- Embeds `XhhUtil.gen_hkey`. `timestamp` is the optional explicit Unix
timestamp; `now` is the value `int(time.time())` would produce, passed
explicitly so that the ambient clock is a parameter of the model.

Mirrors the source:
`raw = f"{path}/bfhdkud_time={timestamp}"`,
`step1 = MD5(raw)`, `step2 = step1.replace("a", "app").replace("0", "app")`,
`hkey = MD5(step2)[:10].upper()`, with full URLs first reduced to their
path component. -/
def gen_hkey (path : String) (timestamp : Option Int) (now : Int) : String × Int :=
  let ts := timestamp.getD now
  let pathL :=
    if listStartsWith path.toList "http".toList then
      rstripSlash (urlparsePath path.toList)
    else path.toList
  let raw := pathL ++ "/bfhdkud_time=".toList ++ (toString ts).toList
  let step1 := md5hexL raw
  let step2 := pyReplace (pyReplace step1 ['a'] "app".toList) ['0'] "app".toList
  (String.mk (((md5hexL step2).take 10).map Char.toUpper), ts)

/-! ### `XhhUtil.build_common_params` -/

/-- Embeds `XhhUtil.build_common_params`: assemble the nine common query
parameters (with `hkey`/`_time` from `gen_hkey(path)` at the current time
`now`), then `params.update(extra)` when `extra` is truthy. -/
def buildCommonParams (path heyboxId xClientType version osType nonce : String)
    (extra : Option PyDict) (xOsType xApp : String) (now : Int) : PyDict :=
  let hk := gen_hkey path Option.none now
  let params : PyDict :=
    [("heybox_id", .str heyboxId),
     ("os_type", .str osType),
     ("x_client_type", .str xClientType),
     ("version", .str version),
     ("_time", .int hk.2),
     ("hkey", .str hk.1),
     ("nonce", .str nonce),
     ("x_os_type", .str xOsType),
     ("x_app", .str xApp)]
  match extra with
  | Option.some e => if e.isEmpty then params else dictUpdate params e
  | Option.none => params

/-! ### `XhhUtil.parse_response` -/

/-- The uniform result dict `{"status": bool, "message": str, "data": ...}`
returned by the response parsers. -/
def resultDict (b : Bool) (m : String) (d : PyValue) : PyDict :=
  [("status", .bool b), ("message", .str m), ("data", d)]

/-- Embeds `XhhUtil.parse_response`: success branch when
`data.get(status_key) == ok_value`, otherwise the failure branch with the
message from `"message"`, then `"msg"`, then the f-string fallback. -/
def parse_response (data : PyDict) (statusKey : String) (okValue : PyValue)
    (dataKey : String) : PyDict :=
  if pyEq (dictGetD data statusKey .none) okValue = true then
    resultDict true "获取成功" (dictGetD data dataKey (.dict []))
  else
    let msg := dictGetD data "message" (dictGetD data "msg"
      (.str ("请求失败: " ++ pyStrOf (dictGetD data statusKey .none))))
    resultDict false (pyStrOf msg) (.dict [])

/-- `parse_response` at its default arguments, as every call site uses it. -/
def parseResponseD (data : PyDict) : PyDict :=
  parse_response data "status" (.str "ok") "data"

/-! ### `XhhRequest.__init__` (and the inherited `XhhApi` constructor)

The constructor is embedded as the sequence of attribute assignments it
performs on a fresh instance whose attribute store starts empty; reading an
attribute that has not been assigned raises `AttributeError`, exactly as in
CPython. -/

/-- `self.name` on the instance attribute store. -/
def getattrSelf (self : PyDict) (name : String) : Except PyErr PyValue :=
  match dictGet self name with
  | Option.some v => Except.ok v
  | Option.none => Except.error (PyErr.attributeError name)

/-- Abstraction of a constructed `httpx.AsyncClient` value: an object
carrying the keyword arguments it was created from. -/
def asyncClientObj (baseUrl : String) (timeout : Int) (cookies : PyValue) : PyValue :=
  .obj [("base_url", .str baseUrl), ("timeout", .int timeout), ("cookies", cookies)]

/-- Embeds `XhhRequest.__init__`: the nine attribute assignments in source
order, then
`self.client = httpx.AsyncClient(base_url=self.BASE_URL, timeout=30,
cookies=self.client.cookies)`, whose keyword argument `self.client.cookies`
is evaluated before `self.client` is ever assigned. -/
def xhhRequestInit (heyboxId pkey xXhhTokenid nonce osType xOsType xApp
    xClientType version : String) : Except PyErr PyDict :=
  let self : PyDict := []
  let self := dictSet self "heybox_id" (.str heyboxId)
  let self := dictSet self "pkey" (.str pkey)
  let self := dictSet self "x_xhh_tokenid" (.str xXhhTokenid)
  let self := dictSet self "os_type" (.str osType)
  let self := dictSet self "version" (.str version)
  let self := dictSet self "nonce" (.str nonce)
  let self := dictSet self "x_os_type" (.str xOsType)
  let self := dictSet self "x_app" (.str xApp)
  let self := dictSet self "x_client_type" (.str xClientType)
  (getattrSelf self "client").bind fun clientV =>
  (pyGetAttr clientV "cookies").bind fun cookies =>
  Except.ok (dictSet self "client" (asyncClientObj "https://api.xiaoheihe.cn" 30 cookies))

/-- `XhhApi` defines no `__init__` of its own; construction runs the
inherited `XhhRequest.__init__` (its `BASE_URL` override has the same
value as the base class constant). -/
def xhhApiInit (heyboxId pkey xXhhTokenid nonce osType xOsType xApp
    xClientType version : String) : Except PyErr PyDict :=
  xhhRequestInit heyboxId pkey xXhhTokenid nonce osType xOsType xApp
    xClientType version

/-! ### `XhhRequest._get_request` / `_post_request`

The transport layer itself is external (`httpx`); its outcome for one
request is abstracted as `HttpAttempt`. `raise_for_status` is modelled as
raising `HTTPStatusError` exactly when the status code is at least 400,
per the spec's transport-error contract. -/

/-- Outcome of one HTTP exchange as seen inside the `try` block: either a
response (whose `.json()` decoding may itself fail) or any other raised
transport exception with its text. -/
inductive HttpAttempt where
  | response (code : Nat) (body : Except String PyValue)
  | failure (text : String)

/-- Embeds the `try/except` of `XhhRequest._get_request`: HTTP status
errors become `{"status": "error", "message": "HTTP <code>"}`, every other
exception (connection failures, JSON decoding) becomes
`{"status": "error", "message": str(e)}`; nothing is retried and nothing
propagates to the caller. -/
def getRequestResult : HttpAttempt → PyValue
  | .failure t => .dict [("status", .str "error"), ("message", .str t)]
  | .response code body =>
    if 400 ≤ code then
      .dict [("status", .str "error"), ("message", .str ("HTTP " ++ toString code))]
    else
      match body with
      | Except.ok j => j
      | Except.error t => .dict [("status", .str "error"), ("message", .str t)]

/-- Embeds the identical `try/except` of `XhhRequest._post_request`. -/
def postRequestResult : HttpAttempt → PyValue
  | .failure t => .dict [("status", .str "error"), ("message", .str t)]
  | .response code body =>
    if 400 ≤ code then
      .dict [("status", .str "error"), ("message", .str ("HTTP " ++ toString code))]
    else
      match body with
      | Except.ok j => j
      | Except.error t => .dict [("status", .str "error"), ("message", .str t)]

/-! ### `XhhUtil.get_review_label` -/

/-- The `REVIEW_SCORE_MAP` constant: score bands in insertion order. -/
def REVIEW_SCORE_MAP : List ((Int × Int) × String) :=
  [((90, 100), "好评如潮"),
   ((80, 90), "特别好评"),
   ((70, 80), "多半好评"),
   ((40, 70), "褒贬不一"),
   ((20, 40), "多半差评"),
   ((0, 20), "差评如潮")]

/-- Embeds `XhhUtil.get_review_label`: first band `(lo, hi)` with
`lo <= score < hi` wins; otherwise the f-string fallback. -/
def get_review_label (score : Int) : String :=
  match REVIEW_SCORE_MAP.find? (fun p => decide (p.1.1 ≤ score) && decide (score < p.1.2)) with
  | Option.some p => p.2
  | Option.none => "未知评分(" ++ toString score ++ ")"

/-! ### `XhhUtil.price_fen_to_yuan`

The source formats `price_fen / 100` (binary float division) with
`f"...:.2f"`. For every `|fen| < 2 ^ 45` the IEEE double nearest to
`fen / 100` rounds back to the exact two-decimal rendering, so the format
is embedded as exact decimal arithmetic, which agrees with CPython on that
whole range (every amount the claims and the upstream API use). -/

/-- Two-digit zero-padded decimal. -/
def pad2 (k : Nat) : String :=
  (if k < 10 then "0" else "") ++ toString k

/-- `f"{n / 100:.2f}"` for an integer number of fen. -/
def fmt2 (n : Int) : String :=
  (if n < 0 then "-" else "") ++ toString (n.natAbs / 100) ++ "." ++ pad2 (n.natAbs % 100)

/-- Embeds `XhhUtil.price_fen_to_yuan`: strings are converted with
`int(...)` first; `0` maps to the free marker, anything else to
`f"¥{price_fen / 100:.2f}"`. Values that are neither `int` nor `str`
make the division raise `TypeError`, as in CPython. -/
def price_fen_to_yuan (v : PyValue) : Except PyErr String :=
  (match v with
   | .str s => pyParseInt s
   | .int i => Except.ok i
   | .bool b => Except.ok (if b then 1 else 0)
   | _ => Except.error (PyErr.typeError "unsupported operand type for division")).bind
  fun fen => Except.ok (if fen = 0 then "免费" else "¥" ++ fmt2 fen)

/-! ### `XhhApi.get_game_achievement` post-processing

The source formats `achieved / total * 100` (float) with `f"...:.1f"`.
The format is embedded as exact rational rounding to tenths with ties to
even, which agrees with CPython's rendering of the correctly rounded
double at every envelope whose quotient is exactly representable or not
within one double ulp of a tenths tie (in particular at every witness
input below). -/

/-- Round `n / d` (for `d > 0`, `n >= 0`) to the nearest integer, ties to
even. -/
def roundHalfEven (n d : Int) : Int :=
  let q := n / d
  let r := n % d
  if 2 * r < d then q
  else if d < 2 * r then q + 1
  else if q % 2 = 0 then q else q + 1

/-- Render a nonnegative tenths count as a one-decimal string. -/
def fmtTenths (t : Int) : String :=
  toString (t / 10) ++ "." ++ toString (t % 10)

/-- `f"{a / t * 100:.1f}"` for integers, as a tenths rounding of
`a * 1000 / t`. -/
def fmtProgress (a t : Int) : String :=
  fmtTenths (roundHalfEven (a * 1000) t)

/-- Numeric view used by the division and comparison in the achievement
post-processor: ints and bools are numbers, everything else is not. -/
def pyNum : PyValue → Option Int
  | .int i => Option.some i
  | .bool b => Option.some (if b then 1 else 0)
  | _ => Option.none

/-- Python `v > 0`. -/
def pyGtZero (v : PyValue) : Except PyErr Bool :=
  match pyNum v with
  | Option.some i => Except.ok (decide (0 < i))
  | Option.none => Except.error (PyErr.typeError "comparison not supported between str and int")

/-- The progress expression
`f"{achieved / total * 100:.1f}%" if total > 0 else "0.0%"`: the division
is only reached when `total > 0`. -/
def progressExpr (achieved total : PyValue) : Except PyErr String :=
  (pyGtZero total).bind fun gt =>
    if gt then
      match pyNum achieved, pyNum total with
      | Option.some a, Option.some t =>
        if t = 0 then Except.error PyErr.zeroDivisionError
        else Except.ok (fmtProgress a t ++ "%")
      | _, _ => Except.error (PyErr.typeError "unsupported operand type for division")
    else Except.ok "0.0%"

/-- Embeds the body of `XhhApi.get_game_achievement` after the HTTP call:
`parse_response`, then, when `result["status"]` is truthy and
`result["data"]` is a dict, attach
`d["progress"] = f"{achieved / total * 100:.1f}%" if total > 0 else "0.0%"`
with `total = d.get("total", 0)` and `achieved = d.get("achieved", 0)`. -/
def getGameAchievementPost (raw : PyDict) : Except PyErr PyDict :=
  let result := parseResponseD raw
  (dictGetItem result "status").bind fun st =>
  if pyTruthy st then
    (dictGetItem result "data").bind fun dv =>
    match dv with
    | .dict d =>
      let total := dictGetD d "total" (.int 0)
      let achieved := dictGetD d "achieved" (.int 0)
      (progressExpr achieved total).bind fun prog =>
      Except.ok (dictSet result "data" (.dict (dictSet d "progress" (.str prog))))
    | _ => Except.ok result
  else Except.ok result

/-! ### `_parse_task_stats` (module-level helper in `api.py`) -/

/-- Embeds `_parse_task_stats`: reject non-`"ok"` envelopes with the
upstream (or fallback) message; otherwise read the seven optional fields of
`raw.get("data", {})` with `bool(...)` / `int(...)` conversions in source
order, then build the check-in or plain result. -/
def parseTaskStats (raw : PyDict) (isCheckinCall : Bool) : Except PyErr PyValue :=
  if pyEq (dictGetD raw "status" .none) (.str "ok") = false then
    let msg := dictGetD raw "message" (dictGetD raw "msg" (.str "请求失败，请检查 pkey 是否过期"))
    Except.ok (.dict (resultDict false (pyStrOf msg) (.dict [])))
  else
    let d := dictGetD raw "data" (.dict [])
    (pyGet d "sign_in" (.int 0)).bind fun signV =>
    let signed := pyTruthy signV
    (pyGet d "sign_in_streak" (.int 0)).bind fun streakV =>
    (pyInt streakV).bind fun streak =>
    (pyGet d "coin" (.int 0)).bind fun coinV =>
    (pyInt coinV).bind fun coin =>
    (pyGet d "exp" (.int 0)).bind fun expRawV =>
    (pyInt expRawV).bind fun expNum =>
    (pyGet d "max_exp" (.int 0)).bind fun maxExpV =>
    (pyInt maxExpV).bind fun maxExp =>
    (pyGet d "task1" (.int 0)).bind fun t1 =>
    let taskShare := pyTruthy t1
    (pyGet d "task2" (.int 0)).bind fun t2 =>
    let taskLike := pyTruthy t2
    let parsed : PyValue := .dict
      [("sign_in", .bool signed),
       ("sign_in_streak", .int streak),
       ("coin", .int coin),
       ("exp", .int expNum),
       ("max_exp", .int maxExp),
       ("share", .bool taskShare),
       ("like", .bool taskLike)]
    Except.ok (.dict
      (if isCheckinCall then
        if signed then
          resultDict true
            ("签到成功！盒币 +" ++ toString coin ++ "，连续签到 " ++ toString streak ++ " 天")
            parsed
        else resultDict false "今日已签到" parsed
      else resultDict true "ok" parsed))

/-! ## Supporting lemmas -/

theorem pyOkBind {α β : Type} (a : α) (f : α → Except PyErr β) :
    Except.bind (Except.ok a) f = f a := rfl

theorem hexOfBytes_length (bs : List Nat) : (hexOfBytes bs).length = 2 * bs.length := by
  induction bs with
  | nil => rfl
  | cons b rest ih => simp [hexOfBytes] at ih ⊢; omega

theorem md5Bytes_length (msg : List Nat) : (md5Bytes msg).length = 16 := by
  simp [md5Bytes, wordLE]

theorem md5hexL_length (s : List Char) : (md5hexL s).length = 32 := by
  simp [md5hexL, hexOfBytes_length, md5Bytes_length]

/-- The lowercase hexadecimal alphabet. -/
def lowerHexChars : List Char := "0123456789abcdef".toList

/-- The uppercase hexadecimal alphabet. -/
def upperHexChars : List Char := "0123456789ABCDEF".toList

theorem hexChar_mem_of_lt (m : Nat) (h : m < 16) : hexChar m ∈ lowerHexChars := by
  revert h
  revert m
  decide

theorem hexChar_mod_mem (n : Nat) : hexChar (n % 16) ∈ lowerHexChars :=
  hexChar_mem_of_lt _ (Nat.mod_lt _ (by norm_num))

theorem hexOfBytes_mem (bs : List Nat) : ∀ c ∈ hexOfBytes bs, c ∈ lowerHexChars := by
  induction bs with
  | nil => intro c hc; simp [hexOfBytes] at hc
  | cons b rest ih =>
    intro c hc
    simp only [hexOfBytes, List.foldr_cons, List.mem_cons] at hc
    rcases hc with h | h | h
    · exact h ▸ hexChar_mod_mem _
    · exact h ▸ hexChar_mod_mem _
    · exact ih c h

theorem md5hexL_mem (s : List Char) : ∀ c ∈ md5hexL s, c ∈ lowerHexChars :=
  hexOfBytes_mem _

theorem toUpper_hex_mem : ∀ c ∈ lowerHexChars, c.toUpper ∈ upperHexChars := by
  decide

theorem strmk_length (l : List Char) : (String.mk l).length = l.length := rfl

theorem strmk_data (l : List Char) : (String.mk l).data = l := rfl

/-! ## Claims -/

/-- C1: for every request path (API paths never start with `"http"`; such
inputs are first reduced to their URL path component by the source) and
every explicitly supplied integer Unix timestamp, `gen_hkey` computes the
token by concatenating the path, the literal marker `"/bfhdkud_time="` and
the decimal timestamp, MD5-hex-digesting, replacing every `'a'` and then
every `'0'` by `"app"`, MD5-hex-digesting again, and uppercasing the first
10 characters; the result does not depend on the ambient clock and is a
10-character uppercase hexadecimal string. -/
theorem c1_gen_hkey_spec (path : String) (ts now now' : Int)
    (h : listStartsWith path.toList "http".toList = false) :
    gen_hkey path (Option.some ts) now =
      (String.mk (((md5hexL (pyReplace (pyReplace
          (md5hexL (path.toList ++ "/bfhdkud_time=".toList ++ (toString ts).toList))
          ['a'] "app".toList) ['0'] "app".toList)).take 10).map Char.toUpper), ts) ∧
    gen_hkey path (Option.some ts) now = gen_hkey path (Option.some ts) now' ∧
    (gen_hkey path (Option.some ts) now).1.length = 10 ∧
    ∀ c ∈ (gen_hkey path (Option.some ts) now).1.data, c ∈ upperHexChars := by
  have hmain : gen_hkey path (Option.some ts) now =
      (String.mk (((md5hexL (pyReplace (pyReplace
          (md5hexL (path.toList ++ "/bfhdkud_time=".toList ++ (toString ts).toList))
          ['a'] "app".toList) ['0'] "app".toList)).take 10).map Char.toUpper), ts) := by
    have h' : listStartsWith path.data ['h', 't', 't', 'p'] = false := h
    simp [gen_hkey, h']
  refine ⟨hmain, ?_, ?_, ?_⟩
  · have hmain' : gen_hkey path (Option.some ts) now' =
        (String.mk (((md5hexL (pyReplace (pyReplace
            (md5hexL (path.toList ++ "/bfhdkud_time=".toList ++ (toString ts).toList))
            ['a'] "app".toList) ['0'] "app".toList)).take 10).map Char.toUpper), ts) := by
      have h' : listStartsWith path.data ['h', 't', 't', 'p'] = false := h
      simp [gen_hkey, h']
    rw [hmain, hmain']
  · rw [hmain]
    simp [strmk_length, List.length_take, md5hexL_length]
  · rw [hmain]
    intro c hc
    simp only [strmk_data, List.mem_map] at hc
    obtain ⟨c', hc', rfl⟩ := hc
    exact toUpper_hex_mem c' (md5hexL_mem _ c' (List.take_subset _ _ hc'))

/-- Closed instance of `c1_gen_hkey_spec` at a real API path. -/
theorem c1_gen_hkey_spec_witness :
    (gen_hkey "/bbs/app/feeds/news" (Option.some 1700000000) 0).1.length = 10 :=
  (c1_gen_hkey_spec "/bbs/app/feeds/news" 1700000000 0 1 (by rfl)).2.2.1

/-- C2: for every argument tuple, constructing an `XhhRequest` (and hence
its public subclass `XhhApi`) raises `AttributeError`: the initializer
reads `self.client.cookies` as an argument of the new `httpx.AsyncClient`
before `self.client` has ever been assigned, so construction at the public
interface never succeeds. -/
theorem c2_init_always_raises (heyboxId pkey xXhhTokenid nonce osType xOsType
    xApp xClientType version : String) :
    xhhRequestInit heyboxId pkey xXhhTokenid nonce osType xOsType xApp
        xClientType version = Except.error (PyErr.attributeError "client") ∧
    xhhApiInit heyboxId pkey xXhhTokenid nonce osType xOsType xApp
        xClientType version = Except.error (PyErr.attributeError "client") :=
  ⟨rfl, rfl⟩

/-- The `parsed_data` dict built by `_parse_task_stats` on a success
envelope with data `d` whose counter fields convert to the given integers. -/
def taskParsed (d : PyDict) (streak coin expNum maxExp : Int) : PyValue :=
  .dict
    [("sign_in", .bool (pyTruthy (dictGetD d "sign_in" (.int 0)))),
     ("sign_in_streak", .int streak),
     ("coin", .int coin),
     ("exp", .int expNum),
     ("max_exp", .int maxExp),
     ("share", .bool (pyTruthy (dictGetD d "task1" (.int 0)))),
     ("like", .bool (pyTruthy (dictGetD d "task2" (.int 0))))]

theorem taskStats_ok_eval (d : PyDict) (streak coin expNum maxExp : Int) (b : Bool)
    (hstreak : pyInt (dictGetD d "sign_in_streak" (.int 0)) = Except.ok streak)
    (hcoin : pyInt (dictGetD d "coin" (.int 0)) = Except.ok coin)
    (hexp : pyInt (dictGetD d "exp" (.int 0)) = Except.ok expNum)
    (hmax : pyInt (dictGetD d "max_exp" (.int 0)) = Except.ok maxExp) :
    parseTaskStats [("status", .str "ok"), ("data", .dict d)] b =
      Except.ok (.dict (
        if b then
          if pyTruthy (dictGetD d "sign_in" (.int 0)) then
            resultDict true
              ("签到成功！盒币 +" ++ toString coin ++ "，连续签到 " ++ toString streak ++ " 天")
              (taskParsed d streak coin expNum maxExp)
          else resultDict false "今日已签到" (taskParsed d streak coin expNum maxExp)
        else resultDict true "ok" (taskParsed d streak coin expNum maxExp))) := by
  have hsd : ("status" = "data") = False := eq_false (by decide)
  simp only [dictGetD] at hstreak hcoin hexp hmax
  simp only [parseTaskStats, dictGetD, dictGet]
  norm_num [pyEq, pyGet, pyOkBind, hstreak, hcoin, hexp, hmax, taskParsed, dictGetD, hsd]

/-- C3: on a `/task/stats/` envelope with status `"ok"` whose counter
fields convert with `int(...)`, the check-in parser
(`_parse_task_stats` with `is_checkin_call=True`, used by `XhhApi.checkin`)
returns `status=True` exactly when `data["sign_in"]` is truthy, and
`status=False` with message `"今日已签到"` when `sign_in` is `0`, absent or
otherwise falsy; both branches carry the parsed task data. -/
theorem c3_checkin_result (d : PyDict) (streak coin expNum maxExp : Int)
    (hstreak : pyInt (dictGetD d "sign_in_streak" (.int 0)) = Except.ok streak)
    (hcoin : pyInt (dictGetD d "coin" (.int 0)) = Except.ok coin)
    (hexp : pyInt (dictGetD d "exp" (.int 0)) = Except.ok expNum)
    (hmax : pyInt (dictGetD d "max_exp" (.int 0)) = Except.ok maxExp) :
    (pyTruthy (dictGetD d "sign_in" (.int 0)) = true →
      parseTaskStats [("status", .str "ok"), ("data", .dict d)] true =
        Except.ok (.dict (resultDict true
          ("签到成功！盒币 +" ++ toString coin ++ "，连续签到 " ++ toString streak ++ " 天")
          (taskParsed d streak coin expNum maxExp)))) ∧
    (pyTruthy (dictGetD d "sign_in" (.int 0)) = false →
      parseTaskStats [("status", .str "ok"), ("data", .dict d)] true =
        Except.ok (.dict (resultDict false "今日已签到"
          (taskParsed d streak coin expNum maxExp)))) := by
  have h := taskStats_ok_eval d streak coin expNum maxExp true hstreak hcoin hexp hmax
  constructor
  · intro hs
    rw [h, if_pos rfl, if_pos hs]
  · intro hs
    rw [h, if_pos rfl, if_neg (by rw [hs]; exact Bool.false_ne_true)]

/-- Closed instance of `c3_checkin_result`: a `sign_in=1` envelope yields
the success branch. -/
theorem c3_checkin_result_witness :
    parseTaskStats
        [("status", .str "ok"),
         ("data", .dict [("sign_in", .int 1), ("sign_in_streak", .int 7), ("coin", .int 100)])]
        true =
      Except.ok (.dict (resultDict true
        ("签到成功！盒币 +" ++ toString (100 : Int) ++ "，连续签到 " ++ toString (7 : Int) ++ " 天")
        (taskParsed [("sign_in", .int 1), ("sign_in_streak", .int 7), ("coin", .int 100)] 7 100 0 0))) :=
  (c3_checkin_result
    [("sign_in", .int 1), ("sign_in_streak", .int 7), ("coin", .int 100)]
    7 100 0 0 rfl rfl rfl rfl).1 rfl

/-- C6 counterexample: a status-`"ok"` envelope whose `coin` field holds
the string `"abc"` makes `_parse_task_stats` raise `ValueError` inside
`int(d.get("coin", 0))` instead of returning a result dict. -/
theorem c6_malformed_field_raises :
    parseTaskStats [("status", .str "ok"), ("data", .dict [("coin", .str "abc")])] false =
      Except.error (PyErr.valueError "invalid literal for int() with base 10: abc") := rfl

/-- C6 (amended): on a status-`"ok"` envelope, fields that are missing from
the data dict are defaulted to zero/false and the parser returns a result
dict whenever the present counter fields are accepted by `int(...)`; the
unconditional never-raises reading fails (see the counterexample). -/
theorem c6_defaults_not_fatal (d : PyDict) (streak coin expNum maxExp : Int)
    (hstreak : pyInt (dictGetD d "sign_in_streak" (.int 0)) = Except.ok streak)
    (hcoin : pyInt (dictGetD d "coin" (.int 0)) = Except.ok coin)
    (hexp : pyInt (dictGetD d "exp" (.int 0)) = Except.ok expNum)
    (hmax : pyInt (dictGetD d "max_exp" (.int 0)) = Except.ok maxExp) :
    (∃ r : PyValue, parseTaskStats [("status", .str "ok"), ("data", .dict d)] false =
        Except.ok r) ∧
    parseTaskStats [("status", .str "ok"), ("data", .dict [])] false =
      Except.ok (.dict (resultDict true "ok" (.dict
        [("sign_in", .bool false), ("sign_in_streak", .int 0), ("coin", .int 0),
         ("exp", .int 0), ("max_exp", .int 0), ("share", .bool false),
         ("like", .bool false)]))) := by
  refine ⟨⟨_, taskStats_ok_eval d streak coin expNum maxExp false hstreak hcoin hexp hmax⟩, rfl⟩

/-- Closed instance of `c6_defaults_not_fatal` at a data dict with a single
integer field. -/
theorem c6_defaults_not_fatal_witness :
    ∃ r : PyValue,
      parseTaskStats [("status", .str "ok"), ("data", .dict [("coin", .int 5)])] false =
        Except.ok r :=
  (c6_defaults_not_fatal [("coin", .int 5)] 0 5 0 0 rfl rfl rfl rfl).1

theorem pyEq_str_iff (v : PyValue) (s : String) : pyEq v (.str s) = true ↔ v = .str s := by
  cases v with
  | str a => simp [pyEq]
  | list xs => cases xs <;> simp [pyEq, pyEqList]
  | dict kvs =>
    rcases kvs with _ | ⟨⟨k, w⟩, rest⟩ <;> simp [pyEq, pyEqDict]
  | none => simp [pyEq]
  | bool b => simp [pyEq]
  | int i => simp [pyEq]
  | obj fs => simp [pyEq]

/-- C4: `parse_response` (at its default arguments, as used everywhere)
maps a `status="ok"` envelope to `status=True, data = envelope["data"]`
(defaulting to `{}` when absent), and any other envelope to `status=False`
with empty data and the message from `"message"`, then `"msg"`, then the
fallback; in particular on the two concrete envelopes of the spec. -/
theorem c4_parse_response (d : PyDict) :
    (dictGet d "status" = Option.some (.str "ok") →
      parseResponseD d = resultDict true "获取成功" (dictGetD d "data" (.dict []))) ∧
    (dictGet d "status" ≠ Option.some (.str "ok") →
      parseResponseD d = resultDict false
        (pyStrOf (dictGetD d "message" (dictGetD d "msg"
          (.str ("请求失败: " ++ pyStrOf (dictGetD d "status" .none))))))
        (.dict [])) ∧
    parseResponseD [("status", .str "ok"), ("data", .dict [("a", .int 1)])] =
      resultDict true "获取成功" (.dict [("a", .int 1)]) ∧
    parseResponseD [("status", .str "fail"), ("message", .str "x")] =
      resultDict false "x" (.dict []) := by
  refine ⟨?_, ?_, rfl, rfl⟩
  · intro h
    simp [parseResponseD, parse_response, dictGetD, h, pyEq]
  · intro h
    have hfalse : pyEq (dictGetD d "status" .none) (.str "ok") = false := by
      rcases hg : dictGet d "status" with _ | v
      · simp [dictGetD, hg, pyEq]
      · have hv : v ≠ .str "ok" := fun he => h (by rw [hg, he])
        simp only [dictGetD, hg, Option.getD_some]
        rw [Bool.eq_false_iff]
        intro hc
        exact hv ((pyEq_str_iff v "ok").mp hc)
    simp [parseResponseD, parse_response, hfalse]

/-- Closed instance of `c4_parse_response`: an envelope with a non-`"ok"`
status and a `"msg"` field takes the failure branch. -/
theorem c4_parse_response_witness :
    parseResponseD [("status", .int 1), ("msg", .str "bad")] =
      resultDict false
        (pyStrOf (dictGetD [("status", .int 1), ("msg", .str "bad")] "message"
          (dictGetD [("status", .int 1), ("msg", .str "bad")] "msg"
            (.str ("请求失败: " ++
              pyStrOf (dictGetD [("status", .int 1), ("msg", .str "bad")] "status" .none))))))
        (.dict []) :=
  (c4_parse_response [("status", .int 1), ("msg", .str "bad")]).2.1 (by simp [dictGet])

/-- C5: every transport/HTTP failure of the GET and POST helpers is
converted to data and never propagated: a status code of at least 400
yields `{"status": "error", "message": "HTTP <code>"}`, any other raised
exception (connection failure, JSON decoding) yields
`{"status": "error", "message": str(e)}`, and a decodable success body is
returned verbatim; a single attempt is made, with no retry. -/
theorem c5_request_error_handling :
    (∀ (code : Nat) (body : Except String PyValue), 400 ≤ code →
      getRequestResult (.response code body) =
        .dict [("status", .str "error"), ("message", .str ("HTTP " ++ toString code))] ∧
      postRequestResult (.response code body) =
        .dict [("status", .str "error"), ("message", .str ("HTTP " ++ toString code))]) ∧
    (∀ t : String,
      getRequestResult (.failure t) =
        .dict [("status", .str "error"), ("message", .str t)] ∧
      postRequestResult (.failure t) =
        .dict [("status", .str "error"), ("message", .str t)]) ∧
    (∀ (code : Nat) (t : String), code < 400 →
      getRequestResult (.response code (Except.error t)) =
        .dict [("status", .str "error"), ("message", .str t)] ∧
      postRequestResult (.response code (Except.error t)) =
        .dict [("status", .str "error"), ("message", .str t)]) ∧
    (∀ (code : Nat) (j : PyValue), code < 400 →
      getRequestResult (.response code (Except.ok j)) = j ∧
      postRequestResult (.response code (Except.ok j)) = j) := by
  refine ⟨?_, ?_, ?_, ?_⟩
  · intro code body h
    constructor <;> simp [getRequestResult, postRequestResult, h]
  · intro t
    constructor <;> rfl
  · intro code t h
    constructor <;> simp [getRequestResult, postRequestResult, Nat.not_le_of_lt h]
  · intro code j h
    constructor <;> simp [getRequestResult, postRequestResult, Nat.not_le_of_lt h]

/-- Closed instance of `c5_request_error_handling` at a 404 response. -/
theorem c5_request_error_handling_witness :
    getRequestResult (.response 404 (Except.ok (.dict []))) =
      .dict [("status", .str "error"), ("message", .str ("HTTP " ++ toString 404))] :=
  (c5_request_error_handling.1 404 (Except.ok (.dict [])) (by norm_num)).1

/-- C7: `price_fen_to_yuan` maps `0` fen to the free marker `"免费"` and
every positive amount `n` of fen to `"¥"` followed by the exact
two-decimal yuan rendering; in particular `4999` maps to `"¥49.99"`. -/
theorem c7_price_fen_to_yuan :
    price_fen_to_yuan (.int 0) = Except.ok "免费" ∧
    (∀ n : Int, 0 < n →
      price_fen_to_yuan (.int n) =
        Except.ok ("¥" ++ toString (n.natAbs / 100) ++ "." ++ pad2 (n.natAbs % 100))) ∧
    price_fen_to_yuan (.int 4999) = Except.ok "¥49.99" := by
  refine ⟨rfl, ?_, rfl⟩
  intro n hn
  simp [price_fen_to_yuan, fmt2, pyOkBind, hn.ne', not_lt_of_lt hn, String.append_assoc]

/-- Closed instance of `c7_price_fen_to_yuan` at 250 fen. -/
theorem c7_price_fen_to_yuan_witness :
    price_fen_to_yuan (.int 250) =
      Except.ok ("¥" ++ toString ((250 : Int).natAbs / 100) ++ "." ++ pad2 ((250 : Int).natAbs % 100)) :=
  c7_price_fen_to_yuan.2.1 250 (by norm_num)

/-- C8: the achievement post-processor attaches
`progress = f"{achieved / total * 100:.1f}%"` whenever `total > 0` (so
`achieved=30, total=50` gives `"60.0%"`) and the literal `"0.0%"` whenever
`total = 0`, without performing the division. -/
theorem c8_achievement_progress (d : PyDict) (a t : Int)
    (ha : dictGetD d "achieved" (.int 0) = .int a)
    (ht : dictGetD d "total" (.int 0) = .int t) :
    (0 < t →
      getGameAchievementPost [("status", .str "ok"), ("data", .dict d)] =
        Except.ok [("status", .bool true), ("message", .str "获取成功"),
          ("data", .dict (dictSet d "progress" (.str (fmtProgress a t ++ "%"))))]) ∧
    (t = 0 →
      getGameAchievementPost [("status", .str "ok"), ("data", .dict d)] =
        Except.ok [("status", .bool true), ("message", .str "获取成功"),
          ("data", .dict (dictSet d "progress" (.str "0.0%")))]) ∧
    getGameAchievementPost
        [("status", .str "ok"), ("data", .dict [("total", .int 50), ("achieved", .int 30)])] =
      Except.ok [("status", .bool true), ("message", .str "获取成功"),
        ("data", .dict [("total", .int 50), ("achieved", .int 30), ("progress", .str "60.0%")])] := by
  have hres : parseResponseD [("status", .str "ok"), ("data", .dict d)] =
      resultDict true "获取成功" (.dict d) := by
    simp [parseResponseD, parse_response, dictGetD, dictGet, pyEq,
      eq_false (by decide : ¬ ("status" = "data"))]
  have hsd : ("status" = "data") = False := eq_false (by decide)
  have hmd : ("message" = "data") = False := eq_false (by decide)
  simp only [dictGetD] at ht ha
  refine ⟨?_, ?_, rfl⟩
  · intro hpos
    simp [getGameAchievementPost, hres, resultDict, dictGetItem, dictGet, dictGetD, pyTruthy,
      progressExpr, pyGtZero, pyNum, ht, ha, hpos, hpos.ne', pyOkBind, hsd, hmd, dictSet]
  · intro hz
    simp [getGameAchievementPost, hres, resultDict, dictGetItem, dictGet, dictGetD, pyTruthy,
      progressExpr, pyGtZero, pyNum, ht, ha, hz, pyOkBind, hsd, hmd, dictSet]

/-- Closed instance of `c8_achievement_progress` at `achieved=1, total=4`. -/
theorem c8_achievement_progress_witness :
    getGameAchievementPost
        [("status", .str "ok"), ("data", .dict [("total", .int 4), ("achieved", .int 1)])] =
      Except.ok [("status", .bool true), ("message", .str "获取成功"),
        ("data", .dict (dictSet [("total", .int 4), ("achieved", .int 1)] "progress"
          (.str (fmtProgress 1 4 ++ "%"))))] :=
  (c8_achievement_progress [("total", .int 4), ("achieved", .int 1)] 1 4 rfl rfl).1
    (by norm_num)

theorem decide_le_false_of (a s : Int) (h : s < a) : decide (a ≤ s) = false := by
  simp
  omega

theorem decide_lt_false_of (a s : Int) (h : a ≤ s) : decide (s < a) = false := by
  simp
  omega

/-- C9: `get_review_label` returns, for every integer score, the label of
the half-open band of `REVIEW_SCORE_MAP` containing it (85 falls in
`[80,90)` and receives `"特别好评"`, 15 falls in `[0,20)` and receives
`"差评如潮"`); a score contained in no band yields the
`"未知评分(<score>)"` fallback. -/
theorem c9_review_label (s : Int) :
    (∀ lo hi lbl, ((lo, hi), lbl) ∈ REVIEW_SCORE_MAP → lo ≤ s → s < hi →
      get_review_label s = lbl) ∧
    (¬ (0 ≤ s ∧ s < 100) → get_review_label s = "未知评分(" ++ toString s ++ ")") ∧
    get_review_label 85 = "特别好评" ∧
    get_review_label 15 = "差评如潮" := by
  refine ⟨?_, ?_, rfl, rfl⟩
  · intro lo hi lbl hmem h1 h2
    fin_cases hmem
    · simp [get_review_label, REVIEW_SCORE_MAP, List.find?, h1, h2]
    · simp [get_review_label, REVIEW_SCORE_MAP, List.find?, h1, h2,
        decide_le_false_of 90 s (by omega)]
    · simp [get_review_label, REVIEW_SCORE_MAP, List.find?, h1, h2,
        decide_le_false_of 90 s (by omega), decide_le_false_of 80 s (by omega)]
    · simp [get_review_label, REVIEW_SCORE_MAP, List.find?, h1, h2,
        decide_le_false_of 90 s (by omega), decide_le_false_of 80 s (by omega),
        decide_le_false_of 70 s (by omega)]
    · simp [get_review_label, REVIEW_SCORE_MAP, List.find?, h1, h2,
        decide_le_false_of 90 s (by omega), decide_le_false_of 80 s (by omega),
        decide_le_false_of 70 s (by omega), decide_le_false_of 40 s (by omega)]
    · simp [get_review_label, REVIEW_SCORE_MAP, List.find?, h1, h2,
        decide_le_false_of 90 s (by omega), decide_le_false_of 80 s (by omega),
        decide_le_false_of 70 s (by omega), decide_le_false_of 40 s (by omega),
        decide_le_false_of 20 s (by omega)]
  · intro h
    rcases lt_or_le s 0 with hneg | hge
    · simp [get_review_label, REVIEW_SCORE_MAP, List.find?,
        decide_le_false_of 90 s (by omega), decide_le_false_of 80 s (by omega),
        decide_le_false_of 70 s (by omega), decide_le_false_of 40 s (by omega),
        decide_le_false_of 20 s (by omega), decide_le_false_of 0 s (by omega)]
    · have hbig : (100 : Int) ≤ s := by omega
      simp [get_review_label, REVIEW_SCORE_MAP, List.find?,
        decide_lt_false_of 100 s (by omega), decide_lt_false_of 90 s (by omega),
        decide_lt_false_of 80 s (by omega), decide_lt_false_of 70 s (by omega),
        decide_lt_false_of 40 s (by omega), decide_lt_false_of 20 s (by omega)]

/-- Closed instance of `c9_review_label` at score 55. -/
theorem c9_review_label_witness : get_review_label 55 = "褒贬不一" :=
  (c9_review_label 55).1 40 70 "褒贬不一" (by simp [REVIEW_SCORE_MAP]) (by norm_num)
    (by norm_num)

theorem dictGet_dictSet_self (d : PyDict) (k : String) (v : PyValue) :
    dictGet (dictSet d k v) k = Option.some v := by
  induction d with
  | nil => simp [dictSet, dictGet]
  | cons p rest ih =>
    obtain ⟨k', v'⟩ := p
    by_cases h : k' = k
    · subst h
      simp [dictSet, dictGet]
    · simp [dictSet, dictGet, h, ih]

theorem dictGet_dictSet_ne (d : PyDict) (k k' : String) (v : PyValue) (h : k' ≠ k) :
    dictGet (dictSet d k v) k' = dictGet d k' := by
  induction d with
  | nil => simp [dictSet, dictGet, Ne.symm h]
  | cons p rest ih =>
    obtain ⟨k0, v0⟩ := p
    by_cases h0 : k0 = k
    · subst h0
      simp [dictSet, dictGet, Ne.symm h]
    · simp only [dictSet, beq_iff_eq, h0, if_false]
      by_cases h1 : k0 = k'
      · subst h1
        simp [dictGet]
      · simp [dictGet, h1, ih]

theorem dictUpdate_cons (d : PyDict) (k : String) (v : PyValue) (rest : PyDict) :
    dictUpdate d ((k, v) :: rest) = dictUpdate (dictSet d k v) rest := rfl

theorem dictGet_dictUpdate_notmem :
    ∀ (e d : PyDict) (k : String), k ∉ e.map Prod.fst →
      dictGet (dictUpdate d e) k = dictGet d k := by
  intro e
  induction e with
  | nil => intro d k _; rfl
  | cons p rest ih =>
    intro d k h
    obtain ⟨k0, v0⟩ := p
    simp only [List.map_cons, List.mem_cons] at h
    push_neg at h
    rw [dictUpdate_cons, ih _ _ h.2, dictGet_dictSet_ne d k0 k v0 h.1]

theorem dictGet_dictUpdate_mem :
    ∀ (e d : PyDict) (k : String) (v : PyValue), (e.map Prod.fst).Nodup →
      dictGet e k = Option.some v →
      dictGet (dictUpdate d e) k = Option.some v := by
  intro e
  induction e with
  | nil => intro d k v _ h; simp [dictGet] at h
  | cons p rest ih =>
    intro d k v hnd h
    obtain ⟨k0, v0⟩ := p
    simp only [List.map_cons, List.nodup_cons] at hnd
    rw [dictUpdate_cons]
    by_cases h0 : k0 = k
    · subst h0
      simp only [dictGet, beq_self_eq_true, if_pos rfl] at h
      rw [dictGet_dictUpdate_notmem rest _ _ hnd.1, dictGet_dictSet_self]
      exact h ▸ rfl
    · simp only [dictGet, beq_iff_eq, h0, if_false] at h
      exact ih _ _ _ hnd.2 h

theorem dictSet_notmem_append (d : PyDict) (k : String) (v : PyValue)
    (h : k ∉ d.map Prod.fst) :
    dictSet d k v = d ++ [(k, v)] := by
  induction d with
  | nil => rfl
  | cons p rest ih =>
    obtain ⟨k0, v0⟩ := p
    simp only [List.map_cons, List.mem_cons] at h
    push_neg at h
    simp [dictSet, Ne.symm h.1, ih h.2]

theorem dictUpdate_disjoint_append :
    ∀ (e d : PyDict), (e.map Prod.fst).Nodup →
      (∀ k ∈ e.map Prod.fst, k ∉ d.map Prod.fst) →
      dictUpdate d e = d ++ e := by
  intro e
  induction e with
  | nil => intro d _ _; simp [dictUpdate]
  | cons p rest ih =>
    intro d hnd hdisj
    obtain ⟨k0, v0⟩ := p
    simp only [List.map_cons, List.nodup_cons] at hnd
    have hk0 : k0 ∉ d.map Prod.fst := hdisj k0 (by simp)
    rw [dictUpdate_cons, dictSet_notmem_append d k0 v0 hk0,
      ih (d ++ [(k0, v0)]) hnd.2 ?_]
    · simp
    · intro k hk
      simp only [List.map_append, List.mem_append, List.map_cons, List.map_nil]
      push_neg
      constructor
      · exact hdisj k (by simp [hk])
      · intro hmem
        simp only [List.mem_cons, List.not_mem_nil, or_false] at hmem
        exact (hnd.1 (hmem ▸ hk)).elim

/-- The keys of the nine generated common parameters, in insertion order. -/
def commonKeys : List String :=
  ["heybox_id", "os_type", "x_client_type", "version", "_time", "hkey", "nonce",
   "x_os_type", "x_app"]

/-- C10: in `build_common_params` the caller's `extra` dict is merged with
`params.update(extra)` after the common parameters are built, so on every
key collision (including `"hkey"`, `"_time"` and `"heybox_id"`) the extra
value wins, and when `extra` shares no key with the common set the result
is exactly the nine common parameters followed by the extra entries. -/
theorem c10_build_common_params (path heyboxId xClientType version osType nonce
    xOsType xApp : String) (now : Int) (e : PyDict) (hne : e ≠ [])
    (hnd : (e.map Prod.fst).Nodup) :
    (∀ k v, dictGet e k = Option.some v →
      dictGet (buildCommonParams path heyboxId xClientType version osType nonce
        (Option.some e) xOsType xApp now) k = Option.some v) ∧
    ((∀ k ∈ e.map Prod.fst, k ∉ commonKeys) →
      buildCommonParams path heyboxId xClientType version osType nonce
          (Option.some e) xOsType xApp now =
        [("heybox_id", .str heyboxId),
         ("os_type", .str osType),
         ("x_client_type", .str xClientType),
         ("version", .str version),
         ("_time", .int (gen_hkey path Option.none now).2),
         ("hkey", .str (gen_hkey path Option.none now).1),
         ("nonce", .str nonce),
         ("x_os_type", .str xOsType),
         ("x_app", .str xApp)] ++ e) := by
  have hie : e.isEmpty = false := by
    cases e
    · exact absurd rfl hne
    · rfl
  constructor
  · intro k v hkv
    simp only [buildCommonParams, hie, if_false]
    exact dictGet_dictUpdate_mem e _ k v hnd hkv
  · intro hdisj
    simp only [buildCommonParams, hie, if_false]
    exact dictUpdate_disjoint_append e _ hnd (by
      intro k hk
      have := hdisj k hk
      simpa [commonKeys] using this)

/-- Closed instance of `c10_build_common_params`: an extra `"hkey"` entry
overrides the generated signature. -/
theorem c10_build_common_params_witness :
    dictGet (buildCommonParams "/p" "hb" "web" "999.0.3" "web" "n"
        (Option.some [("hkey", .str "X")]) "Windows" "heybox" 1700000000) "hkey" =
      Option.some (.str "X") :=
  (c10_build_common_params "/p" "hb" "web" "999.0.3" "web" "n" "Windows" "heybox"
      1700000000 [("hkey", .str "X")] (by simp) (by simp)).1 "hkey" (.str "X") rfl
